import Mathlib

/-!
Verification development for the clarity conversation service
(`clarity_backend/chat`): a shallow embedding of the data model
(`models.py`), the broker operations (`services.py`), the WebSocket
session handlers (`consumers.py`) and the REST endpoints
(`views.py` / `serializers.py`), together with theorems about them.

Timestamps are modelled as natural numbers (`Nat`), identifiers as `Nat`,
and database tables as lists of rows.  Django querysets are embedded as
list filters; `order_by` + `first` as an explicit first-among-the-maximal
(resp. minimal) selection, which refines Django's implementation-defined
tie-break.
-/

namespace Clarity

/-! ### Python `str.strip()` -/

/-- Whitespace characters recognised by Python `str.strip()` (ASCII part;
the repository only ever strips user-typed message text). -/
def isPySpace (c : Char) : Bool :=
  c = ' ' || c = '\t' || c = '\n' || c = '\r' || c = '\x0b' || c = '\x0c'

/-- Remove trailing characters satisfying `p`. -/
def rstripBy (p : Char → Bool) (l : List Char) : List Char :=
  (l.reverse.dropWhile p).reverse

/-- `str.strip()` on the underlying character list: drop leading then
trailing whitespace. -/
def stripChars (l : List Char) : List Char :=
  rstripBy isPySpace (l.dropWhile isPySpace)

/-- Python `str.strip()` on strings. -/
def pyStrip (s : String) : String :=
  ⟨stripChars s.data⟩

theorem dropWhile_dropWhile (p : Char → Bool) (l : List Char) :
    (l.dropWhile p).dropWhile p = l.dropWhile p := by
  induction l with
  | nil => rfl
  | cons a l ih =>
    by_cases h : p a
    · simp [List.dropWhile_cons, h, ih]
    · simp [List.dropWhile_cons, h]

theorem rstripBy_rstripBy (p : Char → Bool) (l : List Char) :
    rstripBy p (rstripBy p l) = rstripBy p l := by
  simp [rstripBy, dropWhile_dropWhile]

/-- The head of `dropWhile p l` never satisfies `p`. -/
theorem head_dropWhile_false (p : Char → Bool) (l : List Char) (a : Char)
    (as : List Char) (h : l.dropWhile p = a :: as) : p a = false := by
  induction l with
  | nil => simp at h
  | cons b bs ih =>
    by_cases hb : p b
    · exact ih (by simpa [List.dropWhile_cons, hb] using h)
    · rw [List.dropWhile_cons, if_neg (by simpa using hb)] at h
      cases h
      simpa using hb

/-- Right-stripping a list whose head is not whitespace leaves the head in
place, so a further left strip is the identity. -/
theorem dropWhile_rstripBy (p : Char → Bool) (a : Char) (l : List Char)
    (h : p a = false) :
    (rstripBy p (a :: l)).dropWhile p = rstripBy p (a :: l) := by
  unfold rstripBy
  rw [List.reverse_cons, List.dropWhile_append]
  by_cases he : (l.reverse.dropWhile p).isEmpty
  · simp [he, List.dropWhile_cons, h]
  · rw [if_neg (by simpa using he), List.reverse_append]
    simp only [List.reverse_cons, List.reverse_nil, List.nil_append,
      List.singleton_append]
    rw [List.dropWhile_cons, if_neg (by simp [h])]

/-- `str.strip()` is idempotent. -/
theorem stripChars_idem (l : List Char) :
    stripChars (stripChars l) = stripChars l := by
  unfold stripChars
  cases hA : l.dropWhile isPySpace with
  | nil => simp [rstripBy]
  | cons a as =>
    have ha : isPySpace a = false := head_dropWhile_false _ _ _ _ hA
    rw [dropWhile_rstripBy isPySpace a as ha, rstripBy_rstripBy]

theorem pyStrip_idem (s : String) : pyStrip (pyStrip s) = pyStrip s := by
  simp [pyStrip, stripChars_idem]

/-! ### Data model (`chat/models.py`) -/

/-- `Conversation`: id, timestamps, active flag, optional title. -/
structure Conversation where
  id : Nat
  createdAt : Nat
  updatedAt : Nat
  isActive : Bool
  title : Option String
deriving DecidableEq, Repr

/-- `ConversationParticipant`: unique (conversation, user) pair with a role
tag, activity/online flags and read/join/leave timestamps. -/
structure Participant where
  convId : Nat
  userId : Nat
  role : String
  joinedAt : Nat
  leftAt : Option Nat
  isActive : Bool
  lastReadAt : Option Nat
  isOnline : Bool
deriving DecidableEq, Repr

/-- `Message`: owning conversation, sender, content, type tag, creation
timestamp (read/edited flags are irrelevant to the claims below and
default on creation). -/
structure Message where
  id : Nat
  convId : Nat
  senderId : Nat
  content : String
  messageType : String
  createdAt : Nat
deriving DecidableEq, Repr

/-- `accounts` profile row: carries the account-level role string
(for agents: role `"AGENT"`). -/
structure Profile where
  userId : Nat
  role : String
deriving DecidableEq, Repr

/-- `auth.User` row: identifier plus the name fields used in titles and
system messages. -/
structure UserRec where
  id : Nat
  username : String
  fullName : String
deriving DecidableEq, Repr

/-- The membership store: conversations, participants, messages, users and
profiles, each a list of rows. -/
structure DB where
  conversations : List Conversation
  participants : List Participant
  messages : List Message
  users : List UserRec
  profiles : List Profile
deriving DecidableEq, Repr

/-- Conversation lookup by primary key (`Conversation.objects.get(id=...)`). -/
def findConv (db : DB) (cid : Nat) : Option Conversation :=
  db.conversations.find? (fun c => c.id = cid)

/-! ### Broker operations (`chat/services.py`, `chat/models.py`) -/

/-- `ConversationService.validate_participant_access`: true iff a
`ConversationParticipant` row with `is_active=True` exists for
(conversation, user); the service raises `PermissionDenied` otherwise. -/
def validateParticipantAccess (db : DB) (cid uid : Nat) : Bool :=
  db.participants.any (fun p => p.convId = cid && p.userId = uid && p.isActive)

/-- `ConversationService.send_message`: validates the sender is an active
participant (else `PermissionDenied`), creates the message, and bumps the
conversation's `updated_at` to now.  `mid` is the fresh message id, `now`
the current time. -/
def sendMessage (db : DB) (cid senderId : Nat) (content messageType : String)
    (now mid : Nat) : Except String (DB × Message) :=
  if validateParticipantAccess db cid senderId then
    let msg : Message := ⟨mid, cid, senderId, content, messageType, now⟩
    Except.ok
      ({ db with
          messages := db.messages ++ [msg]
          conversations := db.conversations.map
            (fun c => if c.id = cid then { c with updatedAt := now } else c) },
        msg)
  else
    Except.error "You are not a participant in this conversation."

/-- Set `last_read_at` on the first participant row matching
(conversation, user) — the row returned by `.filter(...).first()` in
`mark_messages_as_read`, on which `mark_as_read` is called. -/
def setLastReadFirst (cid uid now : Nat) : List Participant → List Participant
  | [] => []
  | p :: ps =>
    if p.convId = cid && p.userId = uid then
      { p with lastReadAt := some now } :: ps
    else
      p :: setLastReadFirst cid uid now ps

/-- `ConversationService.mark_messages_as_read` +
`ConversationParticipant.mark_as_read`: update the matching participant's
`last_read_at` to now; a missing participant row is a silent no-op. -/
def markMessagesAsRead (db : DB) (cid uid now : Nat) : DB :=
  { db with participants := setLastReadFirst cid uid now db.participants }

/-- `ConversationService.close_conversation`: requires active participation
(else `PermissionDenied`); sets the conversation inactive and deactivates
every participant row of the conversation with `left_at = now`. -/
def closeConversation (db : DB) (cid uid now : Nat) : Except String DB :=
  if validateParticipantAccess db cid uid then
    Except.ok
      { db with
          conversations := db.conversations.map
            (fun c => if c.id = cid then { c with isActive := false } else c)
          participants := db.participants.map
            (fun p =>
              if p.convId = cid then
                { p with isActive := false, leftAt := some now }
              else p) }
  else
    Except.error "You are not a participant in this conversation."

/-- `ConversationService.update_participant_online_status`: bulk-update
`is_online` on every participant row matching (conversation, user); no
activity check, no error on a missing row. -/
def updateParticipantOnlineStatus (db : DB) (cid uid : Nat) (b : Bool) : DB :=
  { db with
      participants := db.participants.map
        (fun p =>
          if p.convId = cid && p.userId = uid then { p with isOnline := b }
          else p) }

/-- `ConversationParticipant.get_unread_count`: with no `last_read_at`,
count all conversation messages not sent by this participant; otherwise
count those with `created_at > last_read_at`, excluding own messages. -/
def getUnreadCount (db : DB) (p : Participant) : Nat :=
  match p.lastReadAt with
  | none =>
    (db.messages.filter
      (fun m => m.convId = p.convId && !(m.senderId = p.userId))).length
  | some t =>
    (db.messages.filter
      (fun m => m.convId = p.convId && m.createdAt > t
        && !(m.senderId = p.userId))).length

/-! ### Message history (`get_conversation_messages` + the messages view) -/

/-- Insert into a list kept in descending `created_at` order. -/
def insertDesc (m : Message) : List Message → List Message
  | [] => [m]
  | x :: xs =>
    if m.createdAt ≤ x.createdAt then x :: insertDesc m xs
    else m :: x :: xs

/-- `order_by('-created_at')`: newest first (a deterministic refinement of
the database's implementation-defined tie order). -/
def sortDescByCreated : List Message → List Message
  | [] => []
  | m :: ms => insertDesc m (sortDescByCreated ms)

/-- `ConversationService.get_conversation_messages`: the conversation's
messages, optionally restricted to `created_at` strictly before the
`before` message's `created_at` (an unknown `before` id is ignored),
newest first, truncated to `limit`. -/
def getConversationMessages (db : DB) (cid : Nat) (limit : Nat)
    (beforeId : Option Nat) : List Message :=
  let msgs := db.messages.filter (fun m => m.convId = cid)
  let msgs :=
    match beforeId with
    | some bid =>
      match db.messages.find? (fun m => m.id = bid) with
      | some bm => msgs.filter (fun m => m.createdAt < bm.createdAt)
      | none => msgs
    | none => msgs
  (sortDescByCreated msgs).take limit

/-- The REST history endpoint (`ConversationViewSet.messages`): fetches via
`get_conversation_messages` and reverses the page so it reads oldest
first. -/
def messagesEndpoint (db : DB) (cid : Nat) (limit : Nat)
    (beforeId : Option Nat) : List Message :=
  (getConversationMessages db cid limit beforeId).reverse

/-! ### Agent assignment (`ConversationService._assign_agent`) -/

/-- A user holds the agent role: `profile__role='AGENT'`. -/
def isAgent (db : DB) (uid : Nat) : Bool :=
  db.profiles.any (fun pr => pr.userId = uid && pr.role = "AGENT")

/-- The `active_conversations` annotation: active `agent`-role
participations of this user in active conversations. -/
def agentLoad (db : DB) (uid : Nat) : Nat :=
  (db.participants.filter
    (fun p => p.userId = uid && p.role = "agent" && p.isActive
      && ((findConv db p.convId).map (·.isActive)).getD false)).length

/-- The ids of all agent-role users, in profile-table order. -/
def agentUsers (db : DB) : List Nat :=
  (db.profiles.filter (fun pr => pr.role = "AGENT")).map (·.userId)

/-- First element with minimal `f`-value (`order_by(load).first()`; the tie
break is implementation-defined in the source, stable here). -/
def pickMinBy (f : Nat → Nat) : List Nat → Option Nat
  | [] => none
  | a :: as =>
    match pickMinBy f as with
    | none => some a
    | some b => if f b < f a then some b else some a

/-- `ConversationService._assign_agent`: a requested id with the agent role
is assigned directly; otherwise the least-loaded agent-role user; `none`
when no agent-role user exists. -/
def assignAgent (db : DB) (agentId : Option Nat) : Option Nat :=
  match agentId with
  | some aid =>
    if isAgent db aid then some aid
    else pickMinBy (agentLoad db) (agentUsers db)
  | none => pickMinBy (agentLoad db) (agentUsers db)

/-! ### Conversation creation (`get_or_create_conversation`) -/

/-- `user.username` (empty when the user row is absent). -/
def userName (db : DB) (uid : Nat) : String :=
  (((db.users.find? (fun u => u.id = uid)).map (·.username))).getD ""

/-- `user.get_full_name() or user.username`. -/
def displayName (db : DB) (uid : Nat) : String :=
  match db.users.find? (fun u => u.id = uid) with
  | none => ""
  | some u => if u.fullName = "" then u.username else u.fullName

/-- The `existing_participant` queryset rows: the user's active
`user`-role participations in active conversations. -/
def candidateParts (db : DB) (uid : Nat) : List Participant :=
  db.participants.filter
    (fun p => p.userId = uid && p.role = "user" && p.isActive
      && ((findConv db p.convId).map (·.isActive)).getD false)

/-- `conversation.updated_at` for a participant's conversation. -/
def convUpdatedAt (db : DB) (cid : Nat) : Nat :=
  (((findConv db cid).map (·.updatedAt))).getD 0

/-- `order_by('-conversation__updated_at').first()`: first row among those
with maximal conversation `updated_at`. -/
def pickMaxByUpdated (db : DB) : List Participant → Option Participant
  | [] => none
  | p :: ps =>
    match pickMaxByUpdated db ps with
    | none => some p
    | some q =>
      if convUpdatedAt db q.convId > convUpdatedAt db p.convId then some q
      else some p

/-- The requested agent is already an active `agent`-role participant of
the conversation. -/
def agentActiveInConv (db : DB) (cid aid : Nat) : Bool :=
  db.participants.any
    (fun q => q.convId = cid && q.role = "agent" && q.userId = aid
      && q.isActive)

/-- Result of `get_or_create_conversation`: the updated store, the id of
the returned conversation, the creation flag, and the agent-notification
events emitted (pairs of agent id and conversation id). -/
structure CreateOutcome where
  db : DB
  convId : Nat
  created : Bool
  notified : List (Nat × Nat)
deriving DecidableEq, Repr

/-- The creation branch of `get_or_create_conversation`: insert the
conversation and the requesting user's participant row, run
`_assign_agent`, and on success add the agent participant, the `system`
join message, and the agent notification. -/
def createNewConversation (db : DB) (uid : Nat) (agentId : Option Nat)
    (newCid newMid now : Nat) : CreateOutcome :=
  let conv : Conversation :=
    ⟨newCid, now, now, true, some ("Conversation with " ++ userName db uid)⟩
  let userPart : Participant := ⟨newCid, uid, "user", now, none, true, none, false⟩
  let db1 : DB :=
    { db with
        conversations := db.conversations ++ [conv]
        participants := db.participants ++ [userPart] }
  match assignAgent db1 agentId with
  | none => ⟨db1, newCid, true, []⟩
  | some a =>
    let agentPart : Participant := ⟨newCid, a, "agent", now, none, true, none, false⟩
    let sysMsg : Message :=
      ⟨newMid, newCid, a,
        "Agent " ++ displayName db1 a ++ " has joined the conversation.",
        "system", now⟩
    ⟨{ db1 with
        participants := db1.participants ++ [agentPart]
        messages := db1.messages ++ [sysMsg] },
      newCid, true, [(a, newCid)]⟩

/-- The intermediate store of the creation branch (the `db1` state after
inserting the conversation row and the requesting user's participant row,
before agent assignment); named so theorems can refer to it. -/
def dbWithNewConv (db : DB) (uid newCid now : Nat) : DB :=
  { db with
      conversations := db.conversations ++
        [⟨newCid, now, now, true, some ("Conversation with " ++ userName db uid)⟩]
      participants := db.participants ++
        [⟨newCid, uid, "user", now, none, true, none, false⟩] }

/-- `ConversationService.get_or_create_conversation`. -/
def getOrCreateConversation (db : DB) (uid : Nat) (agentId : Option Nat)
    (newCid newMid now : Nat) : CreateOutcome :=
  match pickMaxByUpdated db (candidateParts db uid) with
  | some p =>
    match agentId with
    | none => ⟨db, p.convId, false, []⟩
    | some aid =>
      if agentActiveInConv db p.convId aid then ⟨db, p.convId, false, []⟩
      else createNewConversation db uid (some aid) newCid newMid now
  | none => createNewConversation db uid agentId newCid newMid now

/-! ### Sessions and broadcast delivery (`chat/consumers.py`) -/

/-- A live WebSocket session: channel (session) id plus the authenticated
user's id. -/
structure Session where
  sid : Nat
  userId : Nat
deriving DecidableEq, Repr

/-- `ChatConsumer.chat_message`: every session in the group sends the
message event, the origin included. -/
def chatMessageRecipients (group : List Session) : List Session :=
  group

/-- `ChatConsumer.typing_indicator`: sent by every session whose user id
differs from the event's `user_id`. -/
def typingRecipients (group : List Session) (eventUserId : Nat) : List Session :=
  group.filter (fun s => !(eventUserId = s.userId))

/-- `ChatConsumer.presence_update`: same exclusion by user id. -/
def presenceRecipients (group : List Session) (eventUserId : Nat) : List Session :=
  group.filter (fun s => !(eventUserId = s.userId))

/-- `ChatConsumer.read_receipt`: same exclusion by user id. -/
def readReceiptRecipients (group : List Session) (eventUserId : Nat) : List Session :=
  group.filter (fun s => !(eventUserId = s.userId))

/-! ### Connection establishment (`ChatConsumer.connect`) -/

/-- `ChatConsumer.validate_conversation_access`: the conversation must
exist and the user must be an active participant; any failure is caught
and reported as no access. -/
def wsValidateAccess (db : DB) (cid uid : Nat) : Bool :=
  (findConv db cid).isSome && validateParticipantAccess db cid uid

/-- Outcome of a connection attempt: the close code (`none` when
accepted), whether the session joined the broadcast group, the resulting
store, and the presence events broadcast to the group
(pairs of user id and `is_online`). -/
structure ConnectOutcome where
  closeCode : Option Nat
  joinedGroup : Bool
  db : DB
  presenceBroadcasts : List (Nat × Bool)
deriving DecidableEq, Repr

/-- `ChatConsumer.connect`: close 4001 when unauthenticated; close 4003
when the identity is not an active participant (or the conversation is
unknown); otherwise join the group, persist `online=true` and broadcast a
presence event. -/
def wsConnect (db : DB) (authenticated : Bool) (uid cid : Nat) : ConnectOutcome :=
  if !authenticated then ⟨some 4001, false, db, []⟩
  else if !wsValidateAccess db cid uid then ⟨some 4003, false, db, []⟩
  else
    ⟨none, true, updateParticipantOnlineStatus db cid uid true, [(uid, true)]⟩

/-! ### Inbound message paths (WS `handle_message`, REST send, REST create) -/

/-- What `ChatConsumer.handle_message` produces: either an error event
back to the sender only, or a persisted message broadcast to the group. -/
inductive WsMsgOutcome where
  | errorEvent (e : String)
  | broadcast (m : Message)
deriving DecidableEq, Repr

/-- `ChatConsumer.handle_message`: strip the inbound content; empty
content is rejected with an error event; otherwise persist through
`sendMessage` (a failure there is caught and reported as an error event)
and broadcast the stored message. -/
def handleMessageWS (db : DB) (cid senderId : Nat) (raw : String)
    (now mid : Nat) : DB × WsMsgOutcome :=
  let content := pyStrip raw
  if content = "" then (db, .errorEvent "Message content cannot be empty")
  else
    match sendMessage db cid senderId content "text" now mid with
    | .error _ => (db, .errorEvent "Failed to save message")
    | .ok (db', m) => (db', .broadcast m)

/-- `MessageCreateSerializer.validate_content`: reject content that strips
to empty, otherwise use the stripped value. -/
def validateContentREST (raw : String) : Except String String :=
  if pyStrip raw = "" then Except.error "Message content cannot be empty."
  else Except.ok (pyStrip raw)

/-- `ConversationViewSet.send_message`: participant check, serializer
validation, then the broker's `sendMessage`. -/
def restSendMessage (db : DB) (cid senderId : Nat) (raw mtype : String)
    (now mid : Nat) : Except String (DB × Message) :=
  if !validateParticipantAccess db cid senderId then
    Except.error "You are not a participant in this conversation."
  else
    match validateContentREST raw with
    | Except.error e => Except.error e
    | Except.ok content => sendMessage db cid senderId content mtype now mid

/-- `ConversationCreateSerializer.message` validation.  Modelled from DRF
`CharField` semantics (`allow_blank=True`, default `trim_whitespace=True`):
the validated value is the stripped input, blank allowed. -/
def drfValidatedMessage (raw : Option String) : Option String :=
  raw.map pyStrip

/-- `ConversationViewSet.create`: get-or-create the conversation, then
send the optional initial message when the validated value is truthy
(Python `if initial_message:`).  A `sendMessage` failure there would
surface as an exception after the creation already committed; in either
case no message row is written on that path. -/
def createConversationEndpoint (db : DB) (uid : Nat) (agentId : Option Nat)
    (rawMessage : Option String) (newCid newMid msgId now : Nat) :
    DB × Nat × Bool :=
  let out := getOrCreateConversation db uid agentId newCid newMid now
  match drfValidatedMessage rawMessage with
  | none => (out.db, out.convId, out.created)
  | some c =>
    if c = "" then (out.db, out.convId, out.created)
    else
      match sendMessage out.db out.convId uid c "text" now msgId with
      | Except.error _ => (out.db, out.convId, out.created)
      | Except.ok (db', _) => (db', out.convId, out.created)

/-! ### Supporting lemmas -/

/-- The access check is exactly "some active participant row exists". -/
theorem validateParticipantAccess_iff (db : DB) (cid uid : Nat) :
    validateParticipantAccess db cid uid = true ↔
      ∃ p ∈ db.participants, p.convId = cid ∧ p.userId = uid ∧ p.isActive = true := by
  simp [validateParticipantAccess, List.any_eq_true, Bool.and_eq_true,
    decide_eq_true_eq, and_assoc]

theorem setLastReadFirst_twice (cid uid t1 t2 : Nat) (l : List Participant) :
    setLastReadFirst cid uid t2 (setLastReadFirst cid uid t1 l) =
      setLastReadFirst cid uid t2 l := by
  induction l with
  | nil => rfl
  | cons p ps ih =>
    by_cases h : (p.convId = cid && p.userId = uid) = true
    · simp [setLastReadFirst, h]
    · simp only [setLastReadFirst, if_neg h, ih]

theorem find?_setLastReadFirst (cid uid t : Nat) (l : List Participant)
    (p : Participant)
    (h : (setLastReadFirst cid uid t l).find?
        (fun q => q.convId = cid && q.userId = uid) = some p) :
    p.lastReadAt = some t := by
  induction l with
  | nil => simp [setLastReadFirst] at h
  | cons q qs ih =>
    by_cases hq : (q.convId = cid && q.userId = uid) = true
    · rw [setLastReadFirst, if_pos hq] at h
      rw [List.find?_cons_of_pos _ (by simpa using hq)] at h
      cases h
      rfl
    · rw [setLastReadFirst, if_neg hq] at h
      rw [List.find?_cons_of_neg _ (by simpa using hq)] at h
      exact ih h

/-- The creation branch, restated through `dbWithNewConv`. -/
theorem createNewConversation_eq (db : DB) (uid : Nat) (agentId : Option Nat)
    (newCid newMid now : Nat) :
    createNewConversation db uid agentId newCid newMid now =
      match assignAgent (dbWithNewConv db uid newCid now) agentId with
      | none => ⟨dbWithNewConv db uid newCid now, newCid, true, []⟩
      | some a =>
        ⟨{ dbWithNewConv db uid newCid now with
            participants := (dbWithNewConv db uid newCid now).participants ++
              [⟨newCid, a, "agent", now, none, true, none, false⟩]
            messages := (dbWithNewConv db uid newCid now).messages ++
              [⟨newMid, newCid, a,
                "Agent " ++ displayName (dbWithNewConv db uid newCid now) a ++
                  " has joined the conversation.",
                "system", now⟩] },
          newCid, true, [(a, newCid)]⟩ := rfl

theorem mem_insertDesc (m x : Message) (l : List Message) :
    x ∈ insertDesc m l ↔ x = m ∨ x ∈ l := by
  induction l with
  | nil => simp [insertDesc]
  | cons y ys ih =>
    by_cases h : m.createdAt ≤ y.createdAt
    · simp only [insertDesc, if_pos h, List.mem_cons, ih]
      tauto
    · simp only [insertDesc, if_neg h, List.mem_cons]

theorem pairwise_insertDesc (m : Message) (l : List Message)
    (h : l.Pairwise (fun a b => b.createdAt ≤ a.createdAt)) :
    (insertDesc m l).Pairwise (fun a b => b.createdAt ≤ a.createdAt) := by
  induction l with
  | nil => simp [insertDesc]
  | cons y ys ih =>
    rcases List.pairwise_cons.mp h with ⟨hy, hys⟩
    by_cases hc : m.createdAt ≤ y.createdAt
    · rw [insertDesc, if_pos hc]
      refine List.pairwise_cons.mpr ⟨?_, ih hys⟩
      intro z hz
      rcases (mem_insertDesc m z ys).mp hz with rfl | hz
      · exact hc
      · exact hy z hz
    · rw [insertDesc, if_neg hc]
      refine List.pairwise_cons.mpr ⟨?_, h⟩
      intro z hz
      rcases List.mem_cons.mp hz with rfl | hz
      · omega
      · exact le_trans (hy z hz) (by omega)

theorem pairwise_sortDescByCreated (l : List Message) :
    (sortDescByCreated l).Pairwise (fun a b => b.createdAt ≤ a.createdAt) := by
  induction l with
  | nil => simp [sortDescByCreated]
  | cons m ms ih => exact pairwise_insertDesc m _ ih

theorem mem_sortDescByCreated (l : List Message) (x : Message) :
    x ∈ sortDescByCreated l ↔ x ∈ l := by
  induction l with
  | nil => simp [sortDescByCreated]
  | cons m ms ih =>
    rw [sortDescByCreated, mem_insertDesc, ih, List.mem_cons]

theorem pickMinBy_none_iff (f : Nat → Nat) (l : List Nat) :
    pickMinBy f l = none ↔ l = [] := by
  cases l with
  | nil => simp [pickMinBy]
  | cons x xs =>
    simp only [pickMinBy]
    constructor
    · intro h
      split at h
      · cases h
      · split at h <;> cases h
    · intro h
      simp at h

theorem pickMinBy_mem (f : Nat → Nat) (l : List Nat) :
    ∀ a, pickMinBy f l = some a → a ∈ l := by
  induction l with
  | nil =>
    intro a h
    simp [pickMinBy] at h
  | cons x xs ih =>
    intro a h
    rw [pickMinBy] at h
    split at h
    · cases h
      exact List.mem_cons_self x xs
    · rename_i b heq
      split at h
      · cases h
        exact List.mem_cons_of_mem x (ih _ heq)
      · cases h
        exact List.mem_cons_self x xs

theorem pickMinBy_min (f : Nat → Nat) (l : List Nat) :
    ∀ a, pickMinBy f l = some a → ∀ b ∈ l, f a ≤ f b := by
  induction l with
  | nil =>
    intro a h
    simp [pickMinBy] at h
  | cons x xs ih =>
    intro a h b hb
    rw [pickMinBy] at h
    split at h
    · rename_i heq
      cases h
      rcases List.mem_cons.mp hb with rfl | hb
      · exact le_refl _
      · rw [pickMinBy_none_iff] at heq
        subst heq
        simp at hb
    · rename_i c heq
      split at h
      · rename_i hlt
        cases h
        rcases List.mem_cons.mp hb with rfl | hb
        · omega
        · exact ih _ heq b hb
      · rename_i hge
        cases h
        rcases List.mem_cons.mp hb with rfl | hb
        · exact le_refl _
        · have := ih _ heq b hb
          omega

theorem pickMaxByUpdated_none_iff (db : DB) (l : List Participant) :
    pickMaxByUpdated db l = none ↔ l = [] := by
  cases l with
  | nil => simp [pickMaxByUpdated]
  | cons x xs =>
    simp only [pickMaxByUpdated]
    constructor
    · intro h
      split at h
      · cases h
      · split at h <;> cases h
    · intro h
      simp at h

theorem pickMaxByUpdated_mem (db : DB) (l : List Participant) :
    ∀ p, pickMaxByUpdated db l = some p → p ∈ l := by
  induction l with
  | nil =>
    intro p h
    simp [pickMaxByUpdated] at h
  | cons x xs ih =>
    intro p h
    rw [pickMaxByUpdated] at h
    split at h
    · cases h
      exact List.mem_cons_self x xs
    · rename_i q heq
      split at h
      · cases h
        exact List.mem_cons_of_mem x (ih _ heq)
      · cases h
        exact List.mem_cons_self x xs

theorem pickMaxByUpdated_max (db : DB) (l : List Participant) :
    ∀ p, pickMaxByUpdated db l = some p →
      ∀ q ∈ l, convUpdatedAt db q.convId ≤ convUpdatedAt db p.convId := by
  induction l with
  | nil =>
    intro p h
    simp [pickMaxByUpdated] at h
  | cons x xs ih =>
    intro p h q hq
    rw [pickMaxByUpdated] at h
    split at h
    · rename_i heq
      cases h
      rcases List.mem_cons.mp hq with rfl | hq
      · exact le_refl _
      · rw [pickMaxByUpdated_none_iff] at heq
        subst heq
        simp at hq
    · rename_i r heq
      split at h
      · rename_i hlt
        cases h
        rcases List.mem_cons.mp hq with rfl | hq
        · omega
        · exact ih _ heq q hq
      · rename_i hge
        cases h
        rcases List.mem_cons.mp hq with rfl | hq
        · exact le_refl _
        · have := ih _ heq q hq
          omega

theorem isAgent_of_mem_agentUsers (db : DB) (a : Nat)
    (h : a ∈ agentUsers db) : isAgent db a = true := by
  rcases List.mem_map.mp h with ⟨pr, hpr, rfl⟩
  rcases List.mem_filter.mp hpr with ⟨hmem, hrole⟩
  rw [isAgent, List.any_eq_true]
  refine ⟨pr, hmem, ?_⟩
  simp only [decide_eq_true_eq] at hrole
  simp [hrole]

/-- A non-whitespace member survives `dropWhile`. -/
theorem mem_dropWhile_of_not (p : Char → Bool) (l : List Char) (c : Char)
    (hc : c ∈ l) (hpc : p c = false) : c ∈ l.dropWhile p := by
  induction l with
  | nil => simp at hc
  | cons a as ih =>
    by_cases ha : p a = true
    · rw [List.dropWhile_cons, if_pos ha]
      rcases List.mem_cons.mp hc with rfl | hc
      · rw [hpc] at ha; cases ha
      · exact ih hc
    · rw [List.dropWhile_cons, if_neg ha]
      exact hc

/-- A list containing a non-whitespace character does not strip to
empty. -/
theorem stripChars_ne_nil (l : List Char) (c : Char) (hc : c ∈ l)
    (hpc : isPySpace c = false) : stripChars l ≠ [] := by
  intro h
  rw [stripChars, rstripBy] at h
  rw [List.reverse_eq_nil_iff] at h
  have h1 : c ∈ l.dropWhile isPySpace := mem_dropWhile_of_not _ _ _ hc hpc
  have h2 : c ∈ (l.dropWhile isPySpace).reverse := List.mem_reverse.mpr h1
  have h3 : c ∈ (l.dropWhile isPySpace).reverse.dropWhile isPySpace :=
    mem_dropWhile_of_not _ _ _ h2 hpc
  rw [h] at h3
  simp at h3

theorem strData_append (s t : String) : (s ++ t).data = s.data ++ t.data := by
  cases s
  cases t
  rfl

/-- The agent-join system message never strips to empty (it starts with
`'A'`). -/
theorem pyStrip_joinMsg_ne (x : String) :
    pyStrip ("Agent " ++ x ++ " has joined the conversation.") ≠ "" := by
  intro h
  have hd : stripChars ("Agent " ++ x ++ " has joined the conversation.").data
      = [] := congrArg String.data h
  have hA : 'A' ∈ ("Agent " ++ x ++ " has joined the conversation.").data := by
    rw [strData_append, strData_append]
    exact List.mem_append_left _ (List.mem_append_left _ (by decide))
  exact stripChars_ne_nil _ 'A' hA (by decide) hd

/-- Any message row present after `get_or_create_conversation` is either a
pre-existing row or the agent-join system message. -/
theorem getOrCreate_messages (db : DB) (uid : Nat) (agentId : Option Nat)
    (newCid newMid now : Nat) :
    ∀ m ∈ (getOrCreateConversation db uid agentId newCid newMid now).db.messages,
      m ∈ db.messages ∨ ∃ a, m.content =
        "Agent " ++ displayName (dbWithNewConv db uid newCid now) a ++
          " has joined the conversation." := by
  have hcreate : ∀ aid : Option Nat,
      ∀ m ∈ (createNewConversation db uid aid newCid newMid now).db.messages,
        m ∈ db.messages ∨ ∃ a, m.content =
          "Agent " ++ displayName (dbWithNewConv db uid newCid now) a ++
            " has joined the conversation." := by
    intro aid m hm
    rw [createNewConversation_eq] at hm
    cases ha : assignAgent (dbWithNewConv db uid newCid now) aid with
    | none =>
      rw [ha] at hm
      exact Or.inl hm
    | some a =>
      rw [ha] at hm
      rcases List.mem_append.mp hm with hm | hm
      · exact Or.inl hm
      · rcases List.mem_singleton.mp hm with rfl
        exact Or.inr ⟨a, rfl⟩
  intro m hm
  cases hp : pickMaxByUpdated db (candidateParts db uid) with
  | none =>
    simp only [getOrCreateConversation, hp] at hm
    exact hcreate agentId m hm
  | some p =>
    cases agentId with
    | none =>
      simp only [getOrCreateConversation, hp] at hm
      exact Or.inl hm
    | some aid =>
      by_cases hin : agentActiveInConv db p.convId aid = true
      · simp only [getOrCreateConversation, hp, hin, if_true] at hm
        exact Or.inl hm
      · simp only [getOrCreateConversation, hp, hin, if_false] at hm
        exact hcreate (some aid) m hm

/-! ### Claims -/

/-- C1: `sendMessage` raises `PermissionDenied` iff the sender is not an
active participant; for an active participant it persists the message with
the given conversation, sender, content and type, bumps the conversation's
`updated_at`, leaves everything else unchanged, and returns the message. -/
theorem c1_sendMessage_spec (db : DB) (cid sender : Nat)
    (content mtype : String) (now mid : Nat) :
    ((∃ e, sendMessage db cid sender content mtype now mid = Except.error e) ↔
      ¬ ∃ p ∈ db.participants, p.convId = cid ∧ p.userId = sender ∧
        p.isActive = true) ∧
    ((∃ p ∈ db.participants, p.convId = cid ∧ p.userId = sender ∧
        p.isActive = true) →
      ∃ db', sendMessage db cid sender content mtype now mid =
          Except.ok (db', ⟨mid, cid, sender, content, mtype, now⟩) ∧
        db'.messages = db.messages ++ [⟨mid, cid, sender, content, mtype, now⟩] ∧
        (∀ c ∈ db'.conversations, c.id = cid → c.updatedAt = now) ∧
        (∀ c ∈ db'.conversations, c.id ≠ cid → c ∈ db.conversations) ∧
        db'.participants = db.participants) := by
  by_cases hv : validateParticipantAccess db cid sender = true
  · have hp := (validateParticipantAccess_iff db cid sender).mp hv
    constructor
    · constructor
      · rintro ⟨e, he⟩
        rw [sendMessage, if_pos hv] at he
        exact absurd he (by simp)
      · intro hno
        exact absurd hp hno
    · intro _
      refine ⟨{ db with
          messages := db.messages ++ [⟨mid, cid, sender, content, mtype, now⟩]
          conversations := db.conversations.map
            (fun c => if c.id = cid then { c with updatedAt := now } else c) },
        ?_, rfl, ?_, ?_, rfl⟩
      · rw [sendMessage, if_pos hv]
      · intro c hc hcid
        rcases List.mem_map.mp hc with ⟨c0, _, rfl⟩
        by_cases h0 : c0.id = cid
        · simp [h0]
        · simp only [if_neg h0] at hcid
          exact absurd hcid h0
      · intro c hc hcid
        rcases List.mem_map.mp hc with ⟨c0, hc0, rfl⟩
        by_cases h0 : c0.id = cid
        · simp only [if_pos h0] at hcid
          exact absurd h0 (by simpa using hcid)
        · simpa [if_neg h0] using hc0
  · constructor
    · constructor
      · intro _
        exact fun hp => hv ((validateParticipantAccess_iff db cid sender).mpr hp)
      · intro _
        exact ⟨_, by rw [sendMessage, if_neg hv]⟩
    · intro hp
      exact absurd ((validateParticipantAccess_iff db cid sender).mpr hp) hv

/-- Witness for C1 at a concrete store: sending as the sole active
participant succeeds and appends exactly that message. -/
theorem c1_sendMessage_spec_witness :
    ∃ db', sendMessage
        ⟨[⟨7, 0, 0, true, none⟩], [⟨7, 3, "user", 0, none, true, none, false⟩],
          [], [], []⟩ 7 3 "hi" "text" 5 11 =
        Except.ok (db', ⟨11, 7, 3, "hi", "text", 5⟩) ∧
      db'.messages = [] ++ [⟨11, 7, 3, "hi", "text", 5⟩] ∧
      (∀ c ∈ db'.conversations, c.id = 7 → c.updatedAt = 5) ∧
      (∀ c ∈ db'.conversations, c.id ≠ 7 →
        c ∈ [(⟨7, 0, 0, true, none⟩ : Conversation)]) ∧
      db'.participants = [⟨7, 3, "user", 0, none, true, none, false⟩] := by
  have h := (c1_sendMessage_spec
    ⟨[⟨7, 0, 0, true, none⟩], [⟨7, 3, "user", 0, none, true, none, false⟩],
      [], [], []⟩ 7 3 "hi" "text" 5 11).2
  exact h ⟨⟨7, 3, "user", 0, none, true, none, false⟩, by decide, by decide⟩

/-- C10: `markRead` is idempotent — a second call supersedes the first
exactly as a single call at the second call's time would, it sets the
participant's `last_read_at` to that later time, and it is total (a
missing participant row is a no-op, never an error). -/
theorem c10_markRead_idempotent (db : DB) (cid uid t1 t2 : Nat) :
    markMessagesAsRead (markMessagesAsRead db cid uid t1) cid uid t2 =
      markMessagesAsRead db cid uid t2 ∧
    (∀ p, (markMessagesAsRead (markMessagesAsRead db cid uid t1) cid uid
        t2).participants.find? (fun q => q.convId = cid && q.userId = uid) =
        some p → p.lastReadAt = some t2) := by
  constructor
  · simp [markMessagesAsRead, setLastReadFirst_twice]
  · intro p hp
    exact find?_setLastReadFirst cid uid t2 _ p hp

/-- Witness for C10 at a concrete store with one participant row. -/
theorem c10_markRead_idempotent_witness :
    markMessagesAsRead (markMessagesAsRead
        ⟨[⟨7, 0, 0, true, none⟩], [⟨7, 3, "user", 0, none, true, none, false⟩],
          [], [], []⟩ 7 3 4) 7 3 9 =
      markMessagesAsRead
        ⟨[⟨7, 0, 0, true, none⟩], [⟨7, 3, "user", 0, none, true, none, false⟩],
          [], [], []⟩ 7 3 9 ∧
    (⟨7, 3, "user", 0, none, true, some 9, false⟩ : Participant).lastReadAt =
      some 9 := by
  have h := c10_markRead_idempotent
    ⟨[⟨7, 0, 0, true, none⟩], [⟨7, 3, "user", 0, none, true, none, false⟩],
      [], [], []⟩ 7 3 4 9
  exact ⟨h.1, h.2 ⟨7, 3, "user", 0, none, true, some 9, false⟩ (by decide)⟩

/-- C9: an unauthenticated connection closes with 4001 while an
authenticated non-participant closes with 4003 — distinct codes — and a
participant-rejected connection performs no group join, no online-status
write and no presence broadcast. -/
theorem c9_connect_rejection (db : DB) (uid cid : Nat) :
    wsConnect db false uid cid = ⟨some 4001, false, db, []⟩ ∧
    (wsValidateAccess db cid uid = false →
      wsConnect db true uid cid = ⟨some 4003, false, db, []⟩ ∧
      (wsConnect db false uid cid).closeCode ≠
        (wsConnect db true uid cid).closeCode) := by
  refine ⟨rfl, fun h => ?_⟩
  rw [wsConnect, wsConnect]
  simp [h]

/-- Witness for C9: a store where user 9 is no participant of
conversation 7. -/
theorem c9_connect_rejection_witness :
    wsConnect ⟨[⟨7, 0, 0, true, none⟩],
        [⟨7, 3, "user", 0, none, true, none, false⟩], [], [], []⟩
      true 9 7 =
      ⟨some 4003, false,
        ⟨[⟨7, 0, 0, true, none⟩],
          [⟨7, 3, "user", 0, none, true, none, false⟩], [], [], []⟩, []⟩ := by
  have h := c9_connect_rejection
    ⟨[⟨7, 0, 0, true, none⟩], [⟨7, 3, "user", 0, none, true, none, false⟩],
      [], [], []⟩ 9 7
  exact (h.2 (by decide)).1

/-- C3 fails as stated: exclusion for typing/presence/read events is by
originating user id, not by originating session, so a second session of
the same user is also skipped.  Group: sessions 0 and 1 of user 1 and
session 2 of user 2; session 0 originates a typing event; session 1 is a
group member different from the originating session yet receives
nothing. -/
theorem c3_counterexample :
    (⟨1, 1⟩ : Session) ∈ [(⟨0, 1⟩ : Session), ⟨1, 1⟩, ⟨2, 2⟩] ∧
    (⟨1, 1⟩ : Session) ≠ ⟨0, 1⟩ ∧
    (⟨1, 1⟩ : Session) ∉ typingRecipients [⟨0, 1⟩, ⟨1, 1⟩, ⟨2, 2⟩] 1 := by
  decide

/-- C3 amended: presence, typing and read-receipt events are delivered to
exactly the group members whose user differs from the originating user —
in particular never to the originating session, but also to no other
session of that same user — while message events are delivered to all
group members including the sender's own session. -/
theorem c3_amended_delivery (group : List Session) (origin s : Session)
    (hs : s ∈ group) :
    s ∈ chatMessageRecipients group ∧
    (s ∈ typingRecipients group origin.userId ↔ s.userId ≠ origin.userId) ∧
    (s ∈ presenceRecipients group origin.userId ↔ s.userId ≠ origin.userId) ∧
    (s ∈ readReceiptRecipients group origin.userId ↔ s.userId ≠ origin.userId) := by
  have key : ∀ ev : Nat,
      s ∈ group.filter (fun t => !(ev = t.userId)) ↔ s.userId ≠ ev := by
    intro ev
    rw [List.mem_filter]
    constructor
    · intro h he
      have h2 := h.2
      simp only [Bool.not_eq_true', decide_eq_false_iff_not] at h2
      exact h2 he.symm
    · intro h
      refine ⟨hs, ?_⟩
      simp only [Bool.not_eq_true', decide_eq_false_iff_not]
      exact fun he => h he.symm
  exact ⟨hs, key origin.userId, key origin.userId, key origin.userId⟩

/-- Witness for C3's amended delivery rule on the counterexample group:
the other user's session receives the typing event, the same user's other
session is a member, and the message event reaches the origin itself. -/
theorem c3_amended_delivery_witness :
    (⟨2, 2⟩ : Session) ∈ typingRecipients [⟨0, 1⟩, ⟨1, 1⟩, ⟨2, 2⟩] 1 ∧
    (⟨0, 1⟩ : Session) ∈ chatMessageRecipients [⟨0, 1⟩, ⟨1, 1⟩, ⟨2, 2⟩] := by
  have h1 := c3_amended_delivery [⟨0, 1⟩, ⟨1, 1⟩, ⟨2, 2⟩] ⟨0, 1⟩ ⟨2, 2⟩ (by decide)
  have h2 := c3_amended_delivery [⟨0, 1⟩, ⟨1, 1⟩, ⟨2, 2⟩] ⟨0, 1⟩ ⟨0, 1⟩ (by decide)
  exact ⟨h1.2.1.mpr (by decide), h2.1⟩

/-- C2 fails as stated: close is not terminal for every state-changing
operation.  Concrete store: conversation 7 with sole active participant
user 3; after a successful close, `markRead` still overwrites the
participant's `last_read_at` and an online-status update still overwrites
`is_online` — both mutate the closed conversation's stored state. -/
theorem c2_counterexample :
    closeConversation
        ⟨[⟨7, 0, 0, true, none⟩], [⟨7, 3, "user", 0, none, true, none, false⟩],
          [], [], []⟩ 7 3 5 =
      Except.ok
        ⟨[⟨7, 0, 0, false, none⟩],
          [⟨7, 3, "user", 0, some 5, false, none, false⟩], [], [], []⟩ ∧
    markMessagesAsRead
        ⟨[⟨7, 0, 0, false, none⟩],
          [⟨7, 3, "user", 0, some 5, false, none, false⟩], [], [], []⟩ 7 3 9 ≠
      ⟨[⟨7, 0, 0, false, none⟩],
        [⟨7, 3, "user", 0, some 5, false, none, false⟩], [], [], []⟩ ∧
    updateParticipantOnlineStatus
        ⟨[⟨7, 0, 0, false, none⟩],
          [⟨7, 3, "user", 0, some 5, false, none, false⟩], [], [], []⟩ 7 3 true ≠
      ⟨[⟨7, 0, 0, false, none⟩],
        [⟨7, 3, "user", 0, some 5, false, none, false⟩], [], [], []⟩ :=
  ⟨rfl, by decide, by decide⟩

/-- C2 amended: a successful close sets the conversation inactive and
deactivates every one of its participants with `left_at` equal to the
close time; afterwards `sendMessage` (on every path, streaming included)
and a further `closeConversation` fail with `PermissionDenied` and persist
nothing — but `markRead` and online-status updates are *not* blocked and
may still mutate participant state of the closed conversation. -/
theorem c2_amended_close (db db' : DB) (cid uid now : Nat)
    (h : closeConversation db cid uid now = Except.ok db') :
    (∀ c ∈ db'.conversations, c.id = cid → c.isActive = false) ∧
    (∀ p ∈ db'.participants, p.convId = cid →
      p.isActive = false ∧ p.leftAt = some now) ∧
    (∀ sender content mtype t2 mid, ∃ e,
      sendMessage db' cid sender content mtype t2 mid = Except.error e) ∧
    (∀ uid2 t2, ∃ e, closeConversation db' cid uid2 t2 = Except.error e) ∧
    (∀ sender raw t2 mid, (handleMessageWS db' cid sender raw t2 mid).1 = db') := by
  by_cases hv : validateParticipantAccess db cid uid = true
  · rw [closeConversation, if_pos hv] at h
    have hdb : db' =
        { db with
            conversations := db.conversations.map
              (fun c => if c.id = cid then { c with isActive := false } else c)
            participants := db.participants.map
              (fun p =>
                if p.convId = cid then
                  { p with isActive := false, leftAt := some now }
                else p) } := by
      cases h
      rfl
    subst hdb
    have hparts : ∀ p ∈ (db.participants.map
        (fun p => if p.convId = cid then
          { p with isActive := false, leftAt := some now } else p)),
        p.convId = cid → p.isActive = false ∧ p.leftAt = some now := by
      intro p hp hpc
      rcases List.mem_map.mp hp with ⟨p0, _, rfl⟩
      by_cases h0 : p0.convId = cid
      · simp [h0]
      · simp only [if_neg h0] at hpc
        exact absurd hpc h0
    have hnv : ∀ sender : Nat, validateParticipantAccess
        { db with
            conversations := db.conversations.map
              (fun c => if c.id = cid then { c with isActive := false } else c)
            participants := db.participants.map
              (fun p =>
                if p.convId = cid then
                  { p with isActive := false, leftAt := some now }
                else p) } cid sender = false := by
      intro sender
      rw [Bool.eq_false_iff]
      intro hc
      rcases (validateParticipantAccess_iff _ cid sender).mp hc
        with ⟨p, hp, hpc, _, hact⟩
      exact absurd hact (by simp [(hparts p hp hpc).1])
    refine ⟨?_, hparts, ?_, ?_, ?_⟩
    · intro c hc hcid
      rcases List.mem_map.mp hc with ⟨c0, _, rfl⟩
      by_cases h0 : c0.id = cid
      · simp [h0]
      · simp only [if_neg h0] at hcid
        exact absurd hcid h0
    · intro sender content mtype t2 mid
      exact ⟨_, by rw [sendMessage, if_neg (by simp [hnv sender])]⟩
    · intro uid2 t2
      exact ⟨_, by rw [closeConversation, if_neg (by simp [hnv uid2])]⟩
    · intro sender raw t2 mid
      rw [handleMessageWS]
      by_cases hr : pyStrip raw = ""
      · simp [hr]
      · rw [if_neg hr, sendMessage, if_neg (by simp [hnv sender])]
  · rw [closeConversation, if_neg hv] at h
    exact absurd h (by simp)

/-- Witness for C2's amended statement at the counterexample store. -/
theorem c2_amended_close_witness :
    (∀ c ∈ ([⟨7, 0, 0, false, none⟩] : List Conversation), c.id = 7 →
      c.isActive = false) ∧
    (∃ e, sendMessage
        ⟨[⟨7, 0, 0, false, none⟩],
          [⟨7, 3, "user", 0, some 5, false, none, false⟩], [], [], []⟩
        7 3 "hi" "text" 9 11 = Except.error e) := by
  have h := c2_amended_close
    ⟨[⟨7, 0, 0, true, none⟩], [⟨7, 3, "user", 0, none, true, none, false⟩],
      [], [], []⟩
    ⟨[⟨7, 0, 0, false, none⟩], [⟨7, 3, "user", 0, some 5, false, none, false⟩],
      [], [], []⟩ 7 3 5 rfl
  exact ⟨h.1, h.2.2.1 3 "hi" "text" 9 11⟩

/-- C4: with no read marker, `unreadCount` is the number of conversation
messages not sent by the participant; with marker `t` it counts those with
creation time strictly after `t`, own messages excluded; and immediately
after `markRead` at time `now` the marked participant's `unreadCount` is 0
over the messages existing at that instant (all created at or before
`now`). -/
theorem c4_unreadCount (db : DB) (p : Participant) :
    (p.lastReadAt = none →
      getUnreadCount db p = db.messages.countP
        (fun m => decide (m.convId = p.convId ∧ m.senderId ≠ p.userId))) ∧
    (∀ t, p.lastReadAt = some t →
      getUnreadCount db p = db.messages.countP
        (fun m => decide (m.convId = p.convId ∧ t < m.createdAt ∧
          m.senderId ≠ p.userId))) ∧
    (∀ cid uid now, (∀ m ∈ db.messages, m.createdAt ≤ now) →
      ∀ q, (markMessagesAsRead db cid uid now).participants.find?
          (fun r => r.convId = cid && r.userId = uid) = some q →
        getUnreadCount (markMessagesAsRead db cid uid now) q = 0) := by
  refine ⟨?_, ?_, ?_⟩
  · intro h
    rw [getUnreadCount, h, ← List.countP_eq_length_filter]
    refine List.countP_congr ?_
    intro m _
    simp [and_assoc]
  · intro t h
    simp only [getUnreadCount, h]
    rw [← List.countP_eq_length_filter]
    refine List.countP_congr ?_
    intro m _
    constructor
    · intro hm
      simp only [Bool.and_eq_true, decide_eq_true_eq, Bool.not_eq_true',
        decide_eq_false_iff_not] at hm
      exact decide_eq_true (by tauto)
    · intro hm
      rw [decide_eq_true_eq] at hm
      simp only [Bool.and_eq_true, decide_eq_true_eq, Bool.not_eq_true',
        decide_eq_false_iff_not]
      refine ⟨⟨hm.1, ?_⟩, hm.2.2⟩
      exact hm.2.1
  · intro cid uid now hbound q hq
    have hqread : q.lastReadAt = some now :=
      find?_setLastReadFirst cid uid now db.participants q hq
    simp only [getUnreadCount, hqread]
    rw [List.length_eq_zero]
    rw [List.filter_eq_nil_iff]
    intro m hm
    have := hbound m hm
    simp only [Bool.and_eq_true, decide_eq_true_eq, gt_iff_lt, not_and,
      Bool.not_eq_true', decide_eq_false_iff_not]
    intro _ hlt
    exact absurd hlt (by omega)

/-- Witness for C4: one foreign message, unread before marking, zero
after `markRead`. -/
theorem c4_unreadCount_witness :
    getUnreadCount
        ⟨[⟨7, 0, 0, true, none⟩], [⟨7, 3, "user", 0, none, true, none, false⟩],
          [⟨11, 7, 4, "hi", "text", 2⟩], [], []⟩
        ⟨7, 3, "user", 0, none, true, none, false⟩ =
      [⟨11, 7, 4, "hi", "text", 2⟩].countP
        (fun m : Message => decide (m.convId = 7 ∧ m.senderId ≠ 3)) ∧
    getUnreadCount
        (markMessagesAsRead
          ⟨[⟨7, 0, 0, true, none⟩], [⟨7, 3, "user", 0, none, true, none, false⟩],
            [⟨11, 7, 4, "hi", "text", 2⟩], [], []⟩ 7 3 5)
        ⟨7, 3, "user", 0, none, true, some 5, false⟩ = 0 := by
  have h := c4_unreadCount
    ⟨[⟨7, 0, 0, true, none⟩], [⟨7, 3, "user", 0, none, true, none, false⟩],
      [⟨11, 7, 4, "hi", "text", 2⟩], [], []⟩
    ⟨7, 3, "user", 0, none, true, none, false⟩
  exact ⟨h.1 rfl,
    h.2.2 7 3 5 (by decide) ⟨7, 3, "user", 0, none, true, some 5, false⟩
      (by decide)⟩

/-- C7: a history page is ordered non-decreasing by creation time (oldest
first after the endpoint's reversal), and when `before` names an existing
message `M`, every returned message was created strictly before `M`. -/
theorem c7_history_ordering (db : DB) (cid limit : Nat) (beforeId : Option Nat) :
    List.Pairwise (fun a b : Message => a.createdAt ≤ b.createdAt)
      (messagesEndpoint db cid limit beforeId) ∧
    (∀ bid bm, beforeId = some bid →
      db.messages.find? (fun m => m.id = bid) = some bm →
      ∀ m ∈ messagesEndpoint db cid limit beforeId,
        m.createdAt < bm.createdAt) := by
  constructor
  · rw [messagesEndpoint, List.pairwise_reverse]
    simp only [getConversationMessages]
    exact List.Pairwise.sublist (List.take_sublist _ _)
      (pairwise_sortDescByCreated _)
  · intro bid bm hb hfind m hm
    subst hb
    simp only [messagesEndpoint, getConversationMessages, hfind] at hm
    rw [List.mem_reverse] at hm
    have hm2 := List.take_subset _ _ hm
    rw [mem_sortDescByCreated] at hm2
    have hlt := (List.mem_filter.mp hm2).2
    simpa using hlt

/-- Witness for C7: with messages created at 1, 2 and 3 in conversation 7,
paging "before the id-12 message (created at 3)" returns the id-10
message (created at 1), and indeed 1 < 3. -/
theorem c7_history_ordering_witness :
    (1 : Nat) < 3 ∧
    (⟨10, 7, 3, "a", "text", 1⟩ : Message) ∈
      messagesEndpoint
        ⟨[⟨7, 0, 0, true, none⟩], [],
          [⟨10, 7, 3, "a", "text", 1⟩, ⟨11, 7, 3, "b", "text", 2⟩,
            ⟨12, 7, 3, "c", "text", 3⟩], [], []⟩ 7 50 (some 12) := by
  have h := (c7_history_ordering
    ⟨[⟨7, 0, 0, true, none⟩], [],
      [⟨10, 7, 3, "a", "text", 1⟩, ⟨11, 7, 3, "b", "text", 2⟩,
        ⟨12, 7, 3, "c", "text", 3⟩], [], []⟩ 7 50 (some 12)).2 12
    ⟨12, 7, 3, "c", "text", 3⟩ rfl (by decide) ⟨10, 7, 3, "a", "text", 1⟩
    (by decide)
  exact ⟨h, by decide⟩

/-- C8: a requested agent-role user is assigned directly; otherwise the
assignee (when one exists) is an agent-role user of minimal load among all
agent-role users; no agent is assigned exactly when no agent-role user
exists, and in that case the conversation is still created, unassigned and
without notification. -/
theorem c8_assignAgent (db : DB) :
    (∀ aid, isAgent db aid = true → assignAgent db (some aid) = some aid) ∧
    (∀ agentId a,
      (agentId = none ∨ ∃ aid, agentId = some aid ∧ isAgent db aid = false) →
      assignAgent db agentId = some a →
        a ∈ agentUsers db ∧ isAgent db a = true ∧
        ∀ b ∈ agentUsers db, agentLoad db a ≤ agentLoad db b) ∧
    (∀ agentId,
      (agentId = none ∨ ∃ aid, agentId = some aid ∧ isAgent db aid = false) →
      (assignAgent db agentId = none ↔ agentUsers db = [])) ∧
    (∀ uid agentId newCid newMid now, agentUsers db = [] →
      (agentId = none ∨ ∃ aid, agentId = some aid ∧ isAgent db aid = false) →
      createNewConversation db uid agentId newCid newMid now =
        ⟨dbWithNewConv db uid newCid now, newCid, true, []⟩) := by
  have hred : ∀ agentId : Option Nat,
      (agentId = none ∨ ∃ aid, agentId = some aid ∧ isAgent db aid = false) →
      assignAgent db agentId = pickMinBy (agentLoad db) (agentUsers db) := by
    rintro agentId (rfl | ⟨aid, rfl, hna⟩)
    · rfl
    · rw [assignAgent, if_neg (by simp [hna])]
  refine ⟨?_, ?_, ?_, ?_⟩
  · intro aid ha
    rw [assignAgent, if_pos ha]
  · intro agentId a hdisj h
    rw [hred agentId hdisj] at h
    have hmem := pickMinBy_mem (agentLoad db) (agentUsers db) a h
    exact ⟨hmem, isAgent_of_mem_agentUsers db a hmem,
      pickMinBy_min (agentLoad db) (agentUsers db) a h⟩
  · intro agentId hdisj
    rw [hred agentId hdisj]
    exact pickMinBy_none_iff _ _
  · intro uid agentId newCid newMid now h0 hdisj
    have hassign : assignAgent (dbWithNewConv db uid newCid now) agentId = none := by
      rcases hdisj with rfl | ⟨aid, rfl, hna⟩
      · rw [assignAgent, pickMinBy_none_iff]
        exact h0
      · have hna' : isAgent (dbWithNewConv db uid newCid now) aid = false := hna
        rw [assignAgent, if_neg (by simp [hna']), pickMinBy_none_iff]
        exact h0
    rw [createNewConversation_eq, hassign]

/-- Witness for C8: two agent-role users 4 (load 1) and 5 (load 0);
requesting agent 4 assigns 4, and unconstrained assignment picks a
minimal-load agent. -/
theorem c8_assignAgent_witness :
    assignAgent
        ⟨[⟨7, 0, 0, true, none⟩], [⟨7, 4, "agent", 0, none, true, none, false⟩],
          [], [], [⟨4, "AGENT"⟩, ⟨5, "AGENT"⟩]⟩ (some 4) = some 4 ∧
    isAgent
        ⟨[⟨7, 0, 0, true, none⟩], [⟨7, 4, "agent", 0, none, true, none, false⟩],
          [], [], [⟨4, "AGENT"⟩, ⟨5, "AGENT"⟩]⟩ 5 = true ∧
    (∀ b ∈ agentUsers
        ⟨[⟨7, 0, 0, true, none⟩], [⟨7, 4, "agent", 0, none, true, none, false⟩],
          [], [], [⟨4, "AGENT"⟩, ⟨5, "AGENT"⟩]⟩,
      agentLoad
          ⟨[⟨7, 0, 0, true, none⟩], [⟨7, 4, "agent", 0, none, true, none, false⟩],
            [], [], [⟨4, "AGENT"⟩, ⟨5, "AGENT"⟩]⟩ 5 ≤
        agentLoad
          ⟨[⟨7, 0, 0, true, none⟩], [⟨7, 4, "agent", 0, none, true, none, false⟩],
            [], [], [⟨4, "AGENT"⟩, ⟨5, "AGENT"⟩]⟩ b) := by
  have h := c8_assignAgent
    ⟨[⟨7, 0, 0, true, none⟩], [⟨7, 4, "agent", 0, none, true, none, false⟩],
      [], [], [⟨4, "AGENT"⟩, ⟨5, "AGENT"⟩]⟩
  have h2 := h.2.1 none 5 (Or.inl rfl) (by decide)
  exact ⟨h.1 4 (by decide), h2.2.1, h2.2.2⟩

/-- C5: when the user has an active `user`-role participation in an active
conversation, the one with maximal `updated_at` is returned unchanged with
`created=false` provided no agent was requested or the requested agent is
already an active participant of it; otherwise a new conversation is
created containing the user as active `user` participant, agent
assignment runs, and a selected agent is added as active `agent`
participant together with a `system` join message and a notification to
that agent; with no agent selected the conversation is created bare. -/
theorem c5_getOrCreate (db : DB) (uid : Nat) (agentId : Option Nat)
    (newCid newMid now : Nat) :
    (∀ p, pickMaxByUpdated db (candidateParts db uid) = some p →
      (p ∈ db.participants ∧ p.userId = uid ∧ p.role = "user" ∧
        p.isActive = true ∧
        ((findConv db p.convId).map (·.isActive)).getD false = true) ∧
      (∀ q ∈ candidateParts db uid,
        convUpdatedAt db q.convId ≤ convUpdatedAt db p.convId) ∧
      ((agentId = none ∨
          ∃ aid, agentId = some aid ∧ agentActiveInConv db p.convId aid = true) →
        getOrCreateConversation db uid agentId newCid newMid now =
          ⟨db, p.convId, false, []⟩)) ∧
    ((pickMaxByUpdated db (candidateParts db uid) = none ∨
      ∃ p aid, pickMaxByUpdated db (candidateParts db uid) = some p ∧
        agentId = some aid ∧ agentActiveInConv db p.convId aid = false) →
      getOrCreateConversation db uid agentId newCid newMid now =
        createNewConversation db uid agentId newCid newMid now) ∧
    (∀ a, assignAgent (dbWithNewConv db uid newCid now) agentId = some a →
      createNewConversation db uid agentId newCid newMid now =
        ⟨{ dbWithNewConv db uid newCid now with
            participants := (dbWithNewConv db uid newCid now).participants ++
              [⟨newCid, a, "agent", now, none, true, none, false⟩]
            messages := (dbWithNewConv db uid newCid now).messages ++
              [⟨newMid, newCid, a,
                "Agent " ++ displayName (dbWithNewConv db uid newCid now) a ++
                  " has joined the conversation.", "system", now⟩] },
          newCid, true, [(a, newCid)]⟩) ∧
    (assignAgent (dbWithNewConv db uid newCid now) agentId = none →
      createNewConversation db uid agentId newCid newMid now =
        ⟨dbWithNewConv db uid newCid now, newCid, true, []⟩) := by
  refine ⟨?_, ?_, ?_, ?_⟩
  · intro p hp
    have hmem := pickMaxByUpdated_mem db _ p hp
    have hflt := List.mem_filter.mp hmem
    refine ⟨?_, pickMaxByUpdated_max db _ p hp, ?_⟩
    · have h2 := hflt.2
      simp only [Bool.and_eq_true, decide_eq_true_eq] at h2
      exact ⟨hflt.1, h2.1.1.1, h2.1.1.2, h2.1.2, h2.2⟩
    · rintro (rfl | ⟨aid, rfl, hin⟩)
      · simp [getOrCreateConversation, hp]
      · simp [getOrCreateConversation, hp, hin]
  · rintro (hnone | ⟨p, aid, hp, rfl, hin⟩)
    · simp [getOrCreateConversation, hnone]
    · simp [getOrCreateConversation, hp, hin]
  · intro a ha
    rw [createNewConversation_eq, ha]
  · intro ha
    rw [createNewConversation_eq, ha]

/-- Witness for C5: user 3 has active conversation 7 (updated at 6) and an
older one 8 (updated at 2); with no requested agent the call returns
conversation 7 unchanged with `created=false`. -/
theorem c5_getOrCreate_witness :
    getOrCreateConversation
        ⟨[⟨7, 0, 6, true, none⟩, ⟨8, 0, 2, true, none⟩],
          [⟨7, 3, "user", 0, none, true, none, false⟩,
            ⟨8, 3, "user", 0, none, true, none, false⟩], [], [], []⟩
        3 none 20 21 9 =
      ⟨⟨[⟨7, 0, 6, true, none⟩, ⟨8, 0, 2, true, none⟩],
          [⟨7, 3, "user", 0, none, true, none, false⟩,
            ⟨8, 3, "user", 0, none, true, none, false⟩], [], [], []⟩,
        7, false, []⟩ := by
  have h := (c5_getOrCreate
    ⟨[⟨7, 0, 6, true, none⟩, ⟨8, 0, 2, true, none⟩],
      [⟨7, 3, "user", 0, none, true, none, false⟩,
        ⟨8, 3, "user", 0, none, true, none, false⟩], [], [], []⟩
    3 none 20 21 9).1 ⟨7, 3, "user", 0, none, true, none, false⟩ (by decide)
  exact h.2.2 (Or.inl rfl)

/-- C6: every message persisted through a public send path has content
that is non-empty after trimming: the streaming path rejects
empty-after-trim input with an error event and persists nothing, and any
message row newly present after the streaming handler, the REST send
endpoint, or the REST create endpoint (optional initial message included)
has trim-non-empty content. -/
theorem c6_content_nonempty (db : DB) (cid uid : Nat) :
    (∀ raw now mid, pyStrip raw = "" →
      handleMessageWS db cid uid raw now mid =
        (db, .errorEvent "Message content cannot be empty")) ∧
    (∀ raw now mid m, m ∈ (handleMessageWS db cid uid raw now mid).1.messages →
      m ∉ db.messages → pyStrip m.content ≠ "") ∧
    (∀ raw mtype now mid db' msg,
      restSendMessage db cid uid raw mtype now mid = Except.ok (db', msg) →
      ∀ m ∈ db'.messages, m ∉ db.messages → pyStrip m.content ≠ "") ∧
    (∀ agentId rawMessage newCid newMid msgId now m,
      m ∈ (createConversationEndpoint db uid agentId rawMessage newCid newMid
        msgId now).1.messages →
      m ∉ db.messages → pyStrip m.content ≠ "") := by
  have hnewmsgs : ∀ agentId newCid newMid now m,
      m ∈ (getOrCreateConversation db uid agentId newCid newMid now).db.messages →
      m ∉ db.messages → pyStrip m.content ≠ "" := by
    intro agentId newCid newMid now m hm hnew
    rcases getOrCreate_messages db uid agentId newCid newMid now m hm with
      hold | ⟨a, hcontent⟩
    · exact absurd hold hnew
    · rw [hcontent]
      exact pyStrip_joinMsg_ne _
  refine ⟨?_, ?_, ?_, ?_⟩
  · intro raw now mid hr
    simp [handleMessageWS, hr]
  · intro raw now mid m hm hnew
    rw [handleMessageWS] at hm
    by_cases hr : pyStrip raw = ""
    · rw [if_pos hr] at hm
      exact absurd hm hnew
    · rw [if_neg hr] at hm
      cases hsend : sendMessage db cid uid (pyStrip raw) "text" now mid with
      | error e =>
        simp only [hsend] at hm
        exact absurd hm hnew
      | ok pr =>
        obtain ⟨db', m'⟩ := pr
        simp only [hsend] at hm
        rw [sendMessage] at hsend
        by_cases hv : validateParticipantAccess db cid uid = true
        · rw [if_pos hv] at hsend
          cases hsend
          rcases List.mem_append.mp hm with hold | hnewm
          · exact absurd hold hnew
          · rcases List.mem_singleton.mp hnewm with rfl
            show pyStrip (pyStrip raw) ≠ ""
            rw [pyStrip_idem]
            exact hr
        · rw [if_neg hv] at hsend
          cases hsend
  · intro raw mtype now mid db' msg h m hm hnew
    rw [restSendMessage] at h
    by_cases hv : validateParticipantAccess db cid uid = true
    · rw [if_neg (by simp [hv])] at h
      rw [validateContentREST] at h
      by_cases hr : pyStrip raw = ""
      · rw [if_pos hr] at h
        cases h
      · rw [if_neg hr] at h
        dsimp only at h
        rw [sendMessage, if_pos hv] at h
        cases h
        rcases List.mem_append.mp hm with hold | hnewm
        · exact absurd hold hnew
        · rcases List.mem_singleton.mp hnewm with rfl
          show pyStrip (pyStrip raw) ≠ ""
          rw [pyStrip_idem]
          exact hr
    · rw [if_pos (by simp [Bool.eq_false_iff.mpr hv])] at h
      cases h
  · intro agentId rawMessage newCid newMid msgId now m hm hnew
    cases rawMessage with
    | none =>
      simp only [createConversationEndpoint, drfValidatedMessage,
        Option.map_none'] at hm
      exact hnewmsgs agentId newCid newMid now m hm hnew
    | some s =>
      simp only [createConversationEndpoint, drfValidatedMessage,
        Option.map_some'] at hm
      by_cases hs : pyStrip s = ""
      · rw [if_pos hs] at hm
        exact hnewmsgs agentId newCid newMid now m hm hnew
      · rw [if_neg hs] at hm
        cases hsend : sendMessage
            (getOrCreateConversation db uid agentId newCid newMid now).db
            (getOrCreateConversation db uid agentId newCid newMid now).convId
            uid (pyStrip s) "text" now msgId with
        | error e =>
          simp only [hsend] at hm
          exact hnewmsgs agentId newCid newMid now m hm hnew
        | ok pr =>
          obtain ⟨db2, m2⟩ := pr
          simp only [hsend] at hm
          rw [sendMessage] at hsend
          by_cases hv : validateParticipantAccess
              (getOrCreateConversation db uid agentId newCid newMid now).db
              (getOrCreateConversation db uid agentId newCid newMid now).convId
              uid = true
          · rw [if_pos hv] at hsend
            cases hsend
            rcases List.mem_append.mp hm with hold | hnewm
            · exact hnewmsgs agentId newCid newMid now m hold hnew
            · rcases List.mem_singleton.mp hnewm with rfl
              show pyStrip (pyStrip s) ≠ ""
              rw [pyStrip_idem]
              exact hs
          · rw [if_neg hv] at hsend
            cases hsend

/-- Witness for C6: whitespace-only streaming input is rejected without
persisting, and a REST send of `"  hi  "` stores trim-non-empty
content. -/
theorem c6_content_nonempty_witness :
    handleMessageWS
        ⟨[⟨7, 0, 0, true, none⟩], [⟨7, 3, "user", 0, none, true, none, false⟩],
          [], [], []⟩ 7 3 "   " 5 11 =
      (⟨[⟨7, 0, 0, true, none⟩], [⟨7, 3, "user", 0, none, true, none, false⟩],
          [], [], []⟩,
        .errorEvent "Message content cannot be empty") ∧
    pyStrip (⟨11, 7, 3, pyStrip "  hi  ", "text", 5⟩ : Message).content ≠ "" := by
  have h := c6_content_nonempty
    ⟨[⟨7, 0, 0, true, none⟩], [⟨7, 3, "user", 0, none, true, none, false⟩],
      [], [], []⟩ 7 3
  refine ⟨h.1 "   " 5 11 (by decide), ?_⟩
  refine h.2.2.1 "  hi  " "text" 5 11 _ _ rfl _ ?_ (by decide)
  decide

end Clarity
